import Mathlib

/-!
Verification development for the sparse bundle adjustment (SBA) core of a
stereo/mono visual SLAM pipeline.  The residual and Jacobian computations of
`Proj` (src/sba/src/proj.cpp), the projection-ingestion path of the SBA ROS
node (src/sba/src/nodes/sba_node.cpp) and the keypoint/disparity association
of the frame-disparity nodelet
(src/frame_image_proc/src/nodelets/frame_disparity.cpp) are embedded
shallowly: doubles become exact rationals, Eigen fixed-size vectors and
matrices become functions out of `Fin n` / Mathlib matrices.  A separate
small IEEE-style value domain `F` (rationals extended with infinities and a
NaN) is used where a claim is about non-finite values.
-/

namespace VslamSBA

open Matrix

/-- Camera node state read by `Proj`: cached world-to-camera matrix `w2n`,
world-to-image matrix `w2i`, intrinsics `Kcam`, the three quaternion
derivative matrices `dRdx`, `dRdy`, `dRdz`, the homogeneous translation and
the stereo baseline. -/
structure Node where
  trans : Fin 4 → ℚ
  w2n : Matrix (Fin 3) (Fin 4) ℚ
  w2i : Matrix (Fin 3) (Fin 4) ℚ
  Kcam : Matrix (Fin 3) (Fin 3) ℚ
  dRdx : Matrix (Fin 3) (Fin 3) ℚ
  dRdy : Matrix (Fin 3) (Fin 3) ℚ
  dRdz : Matrix (Fin 3) (Fin 3) ℚ
  baseline : ℚ

/-- A world point: homogeneous 4-vector, as in `Point` (Eigen `Vector4d`). -/
abbrev Point := Fin 4 → ℚ

/-- Result of `Proj::calcErr`: the stored residual vector `err` and the
returned cost. -/
structure ErrResult where
  err : Fin 3 → ℚ
  cost : ℚ

/-- Embedding of `Proj::calcErrMono_`: project the homogeneous point with the
world-to-image transform, divide the first two components by the depth
`p1(2)`; if the depth is non-positive the residual is zeroed and the cost is
0, otherwise the keypoint is subtracted and the squared norm of the first two
components is returned.  The third component of the stored residual is not
assigned by the mono projection step, so the previous stored value `errOld 2`
is kept there. -/
def calcErrMono (nd : Node) (pt : Point) (kp : Fin 3 → ℚ) (errOld : Fin 3 → ℚ) :
    ErrResult :=
  let p1 := nd.w2i.mulVec pt
  let e1 : Fin 3 → ℚ := fun i => if i = 2 then errOld 2 else p1 i / p1 2
  if p1 2 ≤ 0 then
    { err := fun _ => 0, cost := 0 }
  else
    let e2 : Fin 3 → ℚ := fun i => e1 i - kp i
    { err := e2, cost := e2 0 * e2 0 + e2 1 * e2 1 }

/-- Embedding of `Proj::calcErrStereo_`: the first two residual components
come from the world-to-image projection scaled by `1/p1(2)`; the third is the
right-image horizontal coordinate `p2(0)/p2(2)` with
`p2 = Kcam * (w2n * pt - (baseline,0,0))`.  If the depth `p1(2)` is
non-positive the residual is zeroed and the cost is 0, otherwise the keypoint
is subtracted and the full squared norm is returned. -/
def calcErrStereo (nd : Node) (pt : Point) (kp : Fin 3 → ℚ) : ErrResult :=
  let p1 := nd.w2i.mulVec pt
  let p2 := nd.w2n.mulVec pt
  let pb : Fin 3 → ℚ := ![nd.baseline, 0, 0]
  let invp1 := 1 / p1 2
  let p2k := nd.Kcam.mulVec (p2 - pb)
  let e1 : Fin 3 → ℚ := fun i => if i = 2 then p2k 0 / p2k 2 else p1 i * invp1
  if p1 2 ≤ 0 then
    { err := fun _ => 0, cost := 0 }
  else
    let e2 : Fin 3 → ℚ := fun i => e1 i - kp i
    { err := e2, cost := e2 0 * e2 0 + e2 1 * e2 1 + e2 2 * e2 2 }

/-- Embedding of `Proj::getErrSquaredNorm`: squared norm of the full residual
for a stereo projection, of its first two components for a mono one. -/
def getErrSquaredNorm (stereo : Bool) (err : Fin 3 → ℚ) : ℚ :=
  if stereo then err 0 * err 0 + err 1 * err 1 + err 2 * err 2
  else err 0 * err 0 + err 1 * err 1

/-- Embedding of the camera Jacobian `jacc` built by
`Proj::setJacobiansMono_` (2 rows for image u,v; columns 0-2 translation,
columns 3-5 quaternion).  The constant `qScale` is declared in a header that
is not among the sources; modelled from the spec: a fixed quaternion-scale
constant multiplying the quaternion derivative terms, kept here as the
explicit parameter `qS`. -/
def jaccMono (qS : ℚ) (nd : Node) (pt : Point) : Matrix (Fin 2) (Fin 6) ℚ :=
  let pc := nd.w2n.mulVec pt
  let px := pc 0
  let py := pc 1
  let pz := pc 2
  let ipz2 := 1 / (pz * pz)
  let ipz2fx := ipz2 * nd.Kcam 0 0
  let ipz2fy := ipz2 * nd.Kcam 1 1
  let ipz2fxq := qS * ipz2fx
  let ipz2fyq := qS * ipz2fy
  let pwt : Fin 3 → ℚ := fun i => pt i.castSucc - nd.trans i.castSucc
  let dpx := nd.dRdx.mulVec pwt
  let dpy := nd.dRdy.mulVec pwt
  let dpz := nd.dRdz.mulVec pwt
  let dt0 : Fin 3 → ℚ := fun i => -nd.w2n i 0
  let dt1 : Fin 3 → ℚ := fun i => -nd.w2n i 1
  let dt2 : Fin 3 → ℚ := fun i => -nd.w2n i 2
  Matrix.of
    ![![(pz * dt0 0 - px * dt0 2) * ipz2fx, (pz * dt1 0 - px * dt1 2) * ipz2fx,
        (pz * dt2 0 - px * dt2 2) * ipz2fx, (pz * dpx 0 - px * dpx 2) * ipz2fxq,
        (pz * dpy 0 - px * dpy 2) * ipz2fxq, (pz * dpz 0 - px * dpz 2) * ipz2fxq],
      ![(pz * dt0 1 - py * dt0 2) * ipz2fy, (pz * dt1 1 - py * dt1 2) * ipz2fy,
        (pz * dt2 1 - py * dt2 2) * ipz2fy, (pz * dpx 1 - py * dpx 2) * ipz2fyq,
        (pz * dpy 1 - py * dpy 2) * ipz2fyq, (pz * dpz 1 - py * dpz 2) * ipz2fyq]]

/-- Embedding of the point Jacobian `jacp` built by
`Proj::setJacobiansMono_` (2 rows for image u,v; 3 point coordinates). -/
def jacpMono (nd : Node) (pt : Point) : Matrix (Fin 2) (Fin 3) ℚ :=
  let pc := nd.w2n.mulVec pt
  let px := pc 0
  let py := pc 1
  let pz := pc 2
  let ipz2 := 1 / (pz * pz)
  let ipz2fx := ipz2 * nd.Kcam 0 0
  let ipz2fy := ipz2 * nd.Kcam 1 1
  Matrix.of
    ![![(pz * nd.w2n 0 0 - px * nd.w2n 2 0) * ipz2fx,
        (pz * nd.w2n 0 1 - px * nd.w2n 2 1) * ipz2fx,
        (pz * nd.w2n 0 2 - px * nd.w2n 2 2) * ipz2fx],
      ![(pz * nd.w2n 1 0 - py * nd.w2n 2 0) * ipz2fy,
        (pz * nd.w2n 1 1 - py * nd.w2n 2 1) * ipz2fy,
        (pz * nd.w2n 1 2 - py * nd.w2n 2 2) * ipz2fy]]

/-- Embedding of the camera Jacobian `jacc` built by
`Proj::setJacobiansStereo_` (rows: left u, left v, right u; columns 0-2
translation, 3-5 quaternion).  Scale factors are exactly as in the source:
rows 0 and 2 use the quaternion-scaled `ipz2fxq` also in the translation
columns, row 1 uses the unscaled `ipz2fy` there. -/
def jaccStereo (qS : ℚ) (nd : Node) (pt : Point) : Matrix (Fin 3) (Fin 6) ℚ :=
  let pc := nd.w2n.mulVec pt
  let px := pc 0
  let py := pc 1
  let pz := pc 2
  let ipz2 := 1 / (pz * pz)
  let ipz2fx := ipz2 * nd.Kcam 0 0
  let ipz2fy := ipz2 * nd.Kcam 1 1
  let b := nd.baseline
  let ipz2fxq := qS * ipz2fx
  let ipz2fyq := qS * ipz2fy
  let pwt : Fin 3 → ℚ := fun i => pt i.castSucc - nd.trans i.castSucc
  let dpx := nd.dRdx.mulVec pwt
  let dpy := nd.dRdy.mulVec pwt
  let dpz := nd.dRdz.mulVec pwt
  let dt0 : Fin 3 → ℚ := fun i => -nd.w2n i 0
  let dt1 : Fin 3 → ℚ := fun i => -nd.w2n i 1
  let dt2 : Fin 3 → ℚ := fun i => -nd.w2n i 2
  Matrix.of
    ![![(pz * dt0 0 - px * dt0 2) * ipz2fxq, (pz * dt1 0 - px * dt1 2) * ipz2fxq,
        (pz * dt2 0 - px * dt2 2) * ipz2fxq, (pz * dpx 0 - px * dpx 2) * ipz2fxq,
        (pz * dpy 0 - px * dpy 2) * ipz2fxq, (pz * dpz 0 - px * dpz 2) * ipz2fxq],
      ![(pz * dt0 1 - py * dt0 2) * ipz2fy, (pz * dt1 1 - py * dt1 2) * ipz2fy,
        (pz * dt2 1 - py * dt2 2) * ipz2fy, (pz * dpx 1 - py * dpx 2) * ipz2fyq,
        (pz * dpy 1 - py * dpy 2) * ipz2fyq, (pz * dpz 1 - py * dpz 2) * ipz2fyq],
      ![(pz * dt0 0 - (px - b) * dt0 2) * ipz2fxq,
        (pz * dt1 0 - (px - b) * dt1 2) * ipz2fxq,
        (pz * dt2 0 - (px - b) * dt2 2) * ipz2fxq,
        (pz * dpx 0 - (px - b) * dpx 2) * ipz2fxq,
        (pz * dpy 0 - (px - b) * dpy 2) * ipz2fxq,
        (pz * dpz 0 - (px - b) * dpz 2) * ipz2fxq]]

/-- Embedding of the point Jacobian `jacp` built by
`Proj::setJacobiansStereo_` (rows: left u, left v, right u).  As in the
source, rows 0 and 2 carry the quaternion-scaled factor `ipz2fxq`, row 1 the
unscaled `ipz2fy`. -/
def jacpStereo (qS : ℚ) (nd : Node) (pt : Point) : Matrix (Fin 3) (Fin 3) ℚ :=
  let pc := nd.w2n.mulVec pt
  let px := pc 0
  let py := pc 1
  let pz := pc 2
  let ipz2 := 1 / (pz * pz)
  let ipz2fx := ipz2 * nd.Kcam 0 0
  let ipz2fy := ipz2 * nd.Kcam 1 1
  let b := nd.baseline
  let ipz2fxq := qS * ipz2fx
  Matrix.of
    ![![(pz * nd.w2n 0 0 - px * nd.w2n 2 0) * ipz2fxq,
        (pz * nd.w2n 0 1 - px * nd.w2n 2 1) * ipz2fxq,
        (pz * nd.w2n 0 2 - px * nd.w2n 2 2) * ipz2fxq],
      ![(pz * nd.w2n 1 0 - py * nd.w2n 2 0) * ipz2fy,
        (pz * nd.w2n 1 1 - py * nd.w2n 2 1) * ipz2fy,
        (pz * nd.w2n 1 2 - py * nd.w2n 2 2) * ipz2fy],
      ![(pz * nd.w2n 0 0 - (px - b) * nd.w2n 2 0) * ipz2fxq,
        (pz * nd.w2n 0 1 - (px - b) * nd.w2n 2 1) * ipz2fxq,
        (pz * nd.w2n 0 2 - (px - b) * nd.w2n 2 2) * ipz2fxq]]

/-- Cached blocks written at the end of `Proj::setJacobiansMono_`. -/
structure MonoJacResult where
  Hpp : Matrix (Fin 3) (Fin 3) ℚ
  Hcc : Matrix (Fin 6) (Fin 6) ℚ
  Hpc : Matrix (Fin 3) (Fin 6) ℚ
  JcTE : Fin 6 → ℚ
  Bp : Fin 3 → ℚ

/-- Cached blocks written at the end of `Proj::setJacobiansStereo_`. -/
structure StereoJacResult where
  Hpp : Matrix (Fin 3) (Fin 3) ℚ
  Hcc : Matrix (Fin 6) (Fin 6) ℚ
  Hpc : Matrix (Fin 3) (Fin 6) ℚ
  JcTE : Fin 6 → ℚ
  Bp : Fin 3 → ℚ

/-- Embedding of the block-assembly tail of `Proj::setJacobiansMono_`:
`Hpp = jacp' * jacp`, `Hcc = jacc' * jacc`, `Hpc = jacp' * jacc`,
`JcTE = jacc' * err.start(2)`, `Bp = jacp' * err.start(2)`. -/
def setJacobiansMono (qS : ℚ) (nd : Node) (pt : Point) (err : Fin 3 → ℚ) :
    MonoJacResult :=
  let jacc := jaccMono qS nd pt
  let jacp := jacpMono nd pt
  let err2 : Fin 2 → ℚ := fun i => err i.castSucc
  { Hpp := jacpᵀ * jacp
    Hcc := jaccᵀ * jacc
    Hpc := jacpᵀ * jacc
    JcTE := jaccᵀ.mulVec err2
    Bp := jacpᵀ.mulVec err2 }

/-- Embedding of the block-assembly tail of `Proj::setJacobiansStereo_`:
same products as the mono case but with the full 3-component residual. -/
def setJacobiansStereo (qS : ℚ) (nd : Node) (pt : Point) (err : Fin 3 → ℚ) :
    StereoJacResult :=
  let jacc := jaccStereo qS nd pt
  let jacp := jacpStereo qS nd pt
  { Hpp := jacpᵀ * jacp
    Hcc := jaccᵀ * jacc
    Hpc := jacpᵀ * jacc
    JcTE := jaccᵀ.mulVec err
    Bp := jacpᵀ.mulVec err }

/-- IEEE-754-style extended value domain used where a claim is about
non-finite doubles: exact rationals (finite doubles, with a single zero that
behaves as +0) extended with the two infinities and a NaN.  All inputs of the
Jacobian computation are finite, so exact rational arithmetic with these
special values propagated by the IEEE rules captures the special-value
behaviour of the computation. -/
inductive F where
  | num : ℚ → F
  | inf : F
  | ninf : F
  | nan : F
deriving DecidableEq

/-- The C `isnan` predicate: true exactly on NaN (in particular false on the
infinities). -/
def F.isnan : F → Bool
  | .nan => true
  | _ => false

/-- IEEE negation. -/
def F.neg : F → F
  | .num a => .num (-a)
  | .inf => .ninf
  | .ninf => .inf
  | .nan => .nan

/-- IEEE addition: NaN absorbs, opposite infinities give NaN. -/
def F.add : F → F → F
  | .nan, _ => .nan
  | _, .nan => .nan
  | .num a, .num b => .num (a + b)
  | .inf, .ninf => .nan
  | .ninf, .inf => .nan
  | .inf, _ => .inf
  | _, .inf => .inf
  | .ninf, _ => .ninf
  | _, .ninf => .ninf

/-- IEEE subtraction. -/
def F.sub (a b : F) : F := a.add b.neg

/-- IEEE multiplication: NaN absorbs, zero times an infinity is NaN. -/
def F.mul : F → F → F
  | .nan, _ => .nan
  | _, .nan => .nan
  | .num a, .num b => .num (a * b)
  | .num a, .inf => if 0 < a then .inf else if a < 0 then .ninf else .nan
  | .inf, .num a => if 0 < a then .inf else if a < 0 then .ninf else .nan
  | .num a, .ninf => if 0 < a then .ninf else if a < 0 then .inf else .nan
  | .ninf, .num a => if 0 < a then .ninf else if a < 0 then .inf else .nan
  | .inf, .inf => .inf
  | .ninf, .ninf => .inf
  | .inf, .ninf => .ninf
  | .ninf, .inf => .ninf

/-- IEEE division: NaN absorbs, a nonzero finite value divided by (+)0 is a
signed infinity, 0/0 and inf/inf are NaN, finite over infinite is 0. -/
def F.div : F → F → F
  | .nan, _ => .nan
  | _, .nan => .nan
  | .num a, .num b =>
      if b = 0 then (if 0 < a then .inf else if a < 0 then .ninf else .nan)
      else .num (a / b)
  | .num _, .inf => .num 0
  | .num _, .ninf => .num 0
  | .inf, .num b => if b < 0 then .ninf else .inf
  | .ninf, .num b => if b < 0 then .inf else .ninf
  | .inf, .inf => .nan
  | .inf, .ninf => .nan
  | .ninf, .inf => .nan
  | .ninf, .ninf => .nan

/-- Result of the non-finite-tracking version of `Proj::setJacobiansMono_`:
the two Jacobians and the five cached blocks, with every value in the IEEE
domain `F`. -/
structure MonoJacResultF where
  jacc : Matrix (Fin 2) (Fin 6) F
  jacp : Matrix (Fin 2) (Fin 3) F
  Hpp : Matrix (Fin 3) (Fin 3) F
  Hcc : Matrix (Fin 6) (Fin 6) F
  Hpc : Matrix (Fin 3) (Fin 6) F
  JcTE : Fin 6 → F
  Bp : Fin 3 → F

/-- Non-finite-tracking embedding of `Proj::setJacobiansMono_`.  The source
computes `ipz2 = 1.0/(pz*pz)` and immediately checks `isnan(ipz2)`, trapping
(a deliberate null-pointer write that aborts the process) when it holds:
the trap is modelled by returning `none`.  When the check does not fire the
computation continues and the Jacobians and the cached blocks `Hpp`, `Hcc`,
`Hpc`, `JcTE`, `Bp` are written, whatever values (finite or not) they hold.
All quantities that stay finite for finite inputs are computed exactly over
ℚ; every value downstream of `ipz2` lives in `F`. -/
def setJacobiansMonoF (qS : ℚ) (nd : Node) (pt : Point) (err : Fin 3 → ℚ) :
    Option MonoJacResultF :=
  let pc := nd.w2n.mulVec pt
  let px := pc 0
  let py := pc 1
  let pz := pc 2
  let ipz2 := F.div (F.num 1) (F.num (pz * pz))
  if ipz2.isnan then none else
  let ipz2fx := ipz2.mul (F.num (nd.Kcam 0 0))
  let ipz2fy := ipz2.mul (F.num (nd.Kcam 1 1))
  let ipz2fxq := (F.num qS).mul ipz2fx
  let ipz2fyq := (F.num qS).mul ipz2fy
  let pwt : Fin 3 → ℚ := fun i => pt i.castSucc - nd.trans i.castSucc
  let dpx := nd.dRdx.mulVec pwt
  let dpy := nd.dRdy.mulVec pwt
  let dpz := nd.dRdz.mulVec pwt
  let dt0 : Fin 3 → ℚ := fun i => -nd.w2n i 0
  let dt1 : Fin 3 → ℚ := fun i => -nd.w2n i 1
  let dt2 : Fin 3 → ℚ := fun i => -nd.w2n i 2
  let jacc : Matrix (Fin 2) (Fin 6) F := Matrix.of
    ![![(F.num (pz * dt0 0 - px * dt0 2)).mul ipz2fx,
        (F.num (pz * dt1 0 - px * dt1 2)).mul ipz2fx,
        (F.num (pz * dt2 0 - px * dt2 2)).mul ipz2fx,
        (F.num (pz * dpx 0 - px * dpx 2)).mul ipz2fxq,
        (F.num (pz * dpy 0 - px * dpy 2)).mul ipz2fxq,
        (F.num (pz * dpz 0 - px * dpz 2)).mul ipz2fxq],
      ![(F.num (pz * dt0 1 - py * dt0 2)).mul ipz2fy,
        (F.num (pz * dt1 1 - py * dt1 2)).mul ipz2fy,
        (F.num (pz * dt2 1 - py * dt2 2)).mul ipz2fy,
        (F.num (pz * dpx 1 - py * dpx 2)).mul ipz2fyq,
        (F.num (pz * dpy 1 - py * dpy 2)).mul ipz2fyq,
        (F.num (pz * dpz 1 - py * dpz 2)).mul ipz2fyq]]
  let jacp : Matrix (Fin 2) (Fin 3) F := Matrix.of
    ![![(F.num (pz * nd.w2n 0 0 - px * nd.w2n 2 0)).mul ipz2fx,
        (F.num (pz * nd.w2n 0 1 - px * nd.w2n 2 1)).mul ipz2fx,
        (F.num (pz * nd.w2n 0 2 - px * nd.w2n 2 2)).mul ipz2fx],
      ![(F.num (pz * nd.w2n 1 0 - py * nd.w2n 2 0)).mul ipz2fy,
        (F.num (pz * nd.w2n 1 1 - py * nd.w2n 2 1)).mul ipz2fy,
        (F.num (pz * nd.w2n 1 2 - py * nd.w2n 2 2)).mul ipz2fy]]
  some
    { jacc := jacc
      jacp := jacp
      Hpp := Matrix.of fun i j => ((jacp 0 i).mul (jacp 0 j)).add ((jacp 1 i).mul (jacp 1 j))
      Hcc := Matrix.of fun i j => ((jacc 0 i).mul (jacc 0 j)).add ((jacc 1 i).mul (jacc 1 j))
      Hpc := Matrix.of fun i j => ((jacp 0 i).mul (jacc 0 j)).add ((jacp 1 i).mul (jacc 1 j))
      JcTE := fun j => ((jacc 0 j).mul (F.num (err 0))).add ((jacc 1 j).mul (F.num (err 1)))
      Bp := fun j => ((jacp 0 j).mul (F.num (err 0))).add ((jacp 1 j).mul (F.num (err 1))) }

/-- One projection entry of an incoming Frame message, as consumed by
`SBANode::addProj`: external camera id, external point id, keypoint and
stereo flag. -/
structure ProjMsg where
  camindex : ℕ
  pointindex : ℕ
  u : ℚ
  v : ℚ
  d : ℚ
  stereo : Bool
deriving DecidableEq

/-- One projection stored in a track: internal camera index, keypoint and
stereo flag. -/
structure StoredProj where
  ci : ℕ
  u : ℚ
  v : ℚ
  d : ℚ
  stereo : Bool
deriving DecidableEq

/-- Modelled from the spec: the part of the SysSBA engine state observable
through `SBANode::addProj` — sba.h/sba.cpp are not among the sources, only
this caller is.  `nodes` is the node count (`sba.nodes.size()`); `tracks`
holds, per track, the list of attached projections (`sba.tracks`). -/
structure SysSBAState where
  nodes : ℕ
  tracks : List (List StoredProj)
deriving DecidableEq

/-- Modelled from the spec: `SysSBA::addProj` is missing from the sources;
per the spec it "attaches a new Projection to the Track at
internalPointIndex referencing the node at internalCameraIndex". -/
def sysAddProj (s : SysSBAState) (ci pti : ℕ) (kp : ℚ × ℚ × ℚ) (st : Bool) :
    SysSBAState :=
  { s with
    tracks := s.tracks.set pti
      (s.tracks.getD pti [] ++ [⟨ci, kp.1, kp.2.1, kp.2.2, st⟩]) }

/-- State of the SBANode facade: the two external-to-internal index maps
(std::map from external id to internal index, modelled as association lists;
only lookup, insertion and equality of the key-value sets are observed) and
the SysSBA engine state. -/
structure SBANodeState where
  node_indices : List (ℕ × ℕ)
  point_indices : List (ℕ × ℕ)
  sba : SysSBAState
deriving DecidableEq

/-- Semantics of `std::map<unsigned,unsigned>::operator[]`: return the mapped
value when the key is present; otherwise insert a value-initialized 0 for the
key and return 0. -/
def mapBracket (m : List (ℕ × ℕ)) (k : ℕ) : List (ℕ × ℕ) × ℕ :=
  match m.lookup k with
  | some v => (m, v)
  | none => (m ++ [(k, 0)], 0)

/-- Embedding of `SBANode::addProj`: both external ids are read from the two
index maps with `operator[]`; when the resulting internal indices pass the
bounds check the projection is handed to `sba.addProj`, otherwise a ROS_INFO
failure line is logged (the returned Boolean is true exactly when the failure
line was logged). -/
def addProjNode (s : SBANodeState) (msg : ProjMsg) : SBANodeState × Bool :=
  let r1 := mapBracket s.node_indices msg.camindex
  let r2 := mapBracket s.point_indices msg.pointindex
  let camindex := r1.2
  let pointindex := r2.2
  if pointindex < s.sba.tracks.length ∧ camindex < s.sba.nodes then
    ({ node_indices := r1.1, point_indices := r2.1,
       sba := sysAddProj s.sba camindex pointindex (msg.u, msg.v, msg.d) msg.stereo },
     false)
  else
    ({ node_indices := r1.1, point_indices := r2.1, sba := s.sba }, true)

/-- The cv::KeyPoint fields read by `FrameDisparityNodelet::publishFrame`. -/
structure RawKeypoint where
  ptx : ℚ
  pty : ℚ
  size : ℚ
  angle : ℚ
  response : ℚ
  octave : ℤ
  class_id : ℤ
deriving DecidableEq, Inhabited

/-- One keypoint record of the published Frame message. -/
structure FrameKeypoint where
  x : ℚ
  y : ℚ
  d : ℚ
  size : ℚ
  angle : ℚ
  response : ℚ
  octave : ℤ
  class_id : ℤ
  descriptor : List ℚ
  goodPt : Bool
deriving DecidableEq, Inhabited

/-- C++ float-to-int conversion, applied implicitly when `cv::Mat::at` is
indexed with the float keypoint coordinates: truncation toward zero. -/
def cvTrunc (q : ℚ) : ℤ := if 0 ≤ q then ⌊q⌋ else ⌈q⌉

/-- Body of the per-keypoint loop of `FrameDisparityNodelet::publishFrame`:
the disparity is read from `disp_image` at row `kpts[i].pt.y` and column
`kpts[i].pt.y` — both indices the keypoint's y coordinate, exactly as in
the source; the message keypoint copies the cv fields and the descriptor row,
then the good-point rewrite sets `goodPt` to whether the disparity is
positive and replaces `d` by 10 when it is not. -/
def buildKeypoint (dispImage : ℤ → ℤ → ℚ) (descRow : List ℚ) (kp : RawKeypoint) :
    FrameKeypoint :=
  let disp := dispImage (cvTrunc kp.pty) (cvTrunc kp.pty)
  let base : FrameKeypoint :=
    { x := kp.ptx, y := kp.pty, d := disp, size := kp.size, angle := kp.angle,
      response := kp.response, octave := kp.octave, class_id := kp.class_id,
      descriptor := descRow, goodPt := false }
  if 0 < disp then { base with goodPt := true }
  else { base with d := 10, goodPt := false }

/-- Keypoint loop of `publishFrame` with an explicit running index selecting
the descriptor row `dtors.row(i)`. -/
def publishFrameAux (dispImage : ℤ → ℤ → ℚ) (dtors : ℕ → List ℚ) :
    ℕ → List RawKeypoint → List FrameKeypoint
  | _, [] => []
  | i, kp :: rest =>
      buildKeypoint dispImage (dtors i) kp ::
        publishFrameAux dispImage dtors (i + 1) rest

/-- Embedding of `FrameDisparityNodelet::publishFrame` restricted to the
keypoint list it publishes: the detected keypoints `kpts` and the descriptor
rows `dtors` are inputs (detector and extractor are external collaborators);
the published Frame message carries one `FrameKeypoint` per detected
keypoint, in order. -/
def publishFrame (dispImage : ℤ → ℤ → ℚ) (kpts : List RawKeypoint)
    (dtors : ℕ → List ℚ) : List FrameKeypoint :=
  publishFrameAux dispImage dtors 0 kpts

/-- Concrete camera node for witnesses and failing inputs: identity rotation
and zero translation (so `w2n` and `w2i` are the identity extrinsics), unit
focal lengths and zero principal point (`Kcam` the identity), identity
quaternion-derivative matrices, baseline 1. -/
def cNode : Node :=
  { trans := ![0, 0, 0, 1]
    w2n := Matrix.of ![![1, 0, 0, 0], ![0, 1, 0, 0], ![0, 0, 1, 0]]
    w2i := Matrix.of ![![1, 0, 0, 0], ![0, 1, 0, 0], ![0, 0, 1, 0]]
    Kcam := Matrix.of ![![1, 0, 0], ![0, 1, 0], ![0, 0, 1]]
    dRdx := Matrix.of ![![1, 0, 0], ![0, 1, 0], ![0, 0, 1]]
    dRdy := Matrix.of ![![1, 0, 0], ![0, 1, 0], ![0, 0, 1]]
    dRdz := Matrix.of ![![1, 0, 0], ![0, 1, 0], ![0, 0, 1]]
    baseline := 1 }

/-- Concrete point at depth 1 in front of `cNode`. -/
def cPtFront : Point := ![0, 0, 1, 1]

/-- Concrete point at depth 0 (on the camera plane of `cNode`). -/
def cPtPlane : Point := ![1, 0, 0, 1]

/-- Concrete point at depth -1 (behind `cNode`). -/
def cPtBehind : Point := ![0, 0, -1, 1]

/-- Concrete keypoint observation. -/
def cKp : Fin 3 → ℚ := ![1, 2, 3]

/-- Concrete SBANode state: one node already mapped under external id 5, one
track (with no projections yet) mapped under external id 7. -/
def cS0 : SBANodeState :=
  { node_indices := [(5, 0)]
    point_indices := [(7, 0)]
    sba := { nodes := 1, tracks := [[]] } }

/-- Concrete projection message whose external camera id 99 was never mapped
by an addNode call; its external point id 7 is mapped. -/
def cMsg : ProjMsg :=
  { camindex := 99, pointindex := 7, u := 1, v := 2, d := 3, stereo := true }

/-- Concrete disparity image whose value at (r, c) is r + c. -/
def cImg : ℤ → ℤ → ℚ := fun r c => (r : ℚ) + (c : ℚ)

/-- Concrete disparity image that is 0 everywhere. -/
def cImg0 : ℤ → ℤ → ℚ := fun _ _ => 0

/-- Concrete detected keypoint at pixel (7, 2). -/
def cRawKp : RawKeypoint :=
  { ptx := 7, pty := 2, size := 3, angle := 0, response := 1, octave := 0,
    class_id := 0 }

/-- Concrete descriptor rows. -/
def cDtors : ℕ → List ℚ := fun _ => [1, 2]

/-- C1: at a node and point with identical camera geometry and positive
projected depth (depth 1 here), the entry (0,0) of the stereo camera
Jacobian is the quaternion-scale multiple of the mono one (qScale = 2 gives
-2 against -1), so the first two rows of the stereo Jacobian do not equal the
mono Jacobian: the stereo code multiplies the translational and point
derivative entries of row 0 by the quaternion scale, which per its own
comment belongs to quaternion derivatives only. -/
theorem C1_stereo_row_zero_diverges_from_mono :
    jaccStereo 2 cNode cPtFront 0 0 = -2 ∧
    jaccMono 2 cNode cPtFront 0 0 = -1 ∧
    jaccStereo 2 cNode cPtFront 0 0 ≠ jaccMono 2 cNode cPtFront 0 0 := by
  norm_num [jaccStereo, jaccMono, cNode, cPtFront, Matrix.mulVec,
    Matrix.dotProduct, Fin.sum_univ_four]

/-- C2: a projection message whose external camera id (99) was never mapped
is not rejected by `SBANode::addProj`: `operator[]` silently inserts the
default mapping 99 ↦ 0 into the node index map, the bounds check passes
because internal index 0 exists, the projection is attached to track 0
referencing node 0, and no failure line is logged — the graph state and both
maps change. -/
theorem C2_unmapped_id_mutates_map_and_adds_projection :
    (addProjNode cS0 cMsg).2 = false ∧
    (addProjNode cS0 cMsg).1.node_indices = [(5, 0), (99, 0)] ∧
    (addProjNode cS0 cMsg).1.sba.tracks = [[⟨0, 1, 2, 3, true⟩]] :=
  ⟨rfl, rfl, rfl⟩

/-- C4: at a point on the camera plane (camera-frame depth pz = 0) the
inverse squared depth is +Inf, the `isnan(ipz2)` guard of
`Proj::setJacobiansMono_` does not fire (isnan is false on Inf), and the
computation completes and writes non-finite values into the Jacobian (entry
(0,2) is +Inf) and into the cached block Hcc (entry (2,2) is NaN), instead
of aborting. -/
theorem C4_infinite_ipz2_escapes_isnan_guard :
    (setJacobiansMonoF 2 cNode cPtPlane (fun _ => 0)).map
        (fun B => (B.jacc 0 2, B.Hcc 2 2)) = some (F.inf, F.nan) := by
  norm_num [setJacobiansMonoF, cNode, cPtPlane, F.div, F.mul, F.add, F.isnan,
    Matrix.mulVec, Matrix.dotProduct, Fin.sum_univ_four]

/-- C5: after `setJacobians` (mono and stereo alike) the cached blocks equal
the stated products of the just-computed Jacobians: Hpp = jacpᵀ jacp,
Hcc = jaccᵀ jacc, Hpc = jacpᵀ jacc, JcTE = jaccᵀ e, Bp = jacpᵀ e, where e is
the first two residual components for mono and the full residual for
stereo. -/
theorem C5_cached_blocks_are_jacobian_products :
    ∀ (qS : ℚ) (nd : Node) (pt : Point) (e : Fin 3 → ℚ),
      ((setJacobiansMono qS nd pt e).Hpp = (jacpMono nd pt)ᵀ * jacpMono nd pt ∧
       (setJacobiansMono qS nd pt e).Hcc = (jaccMono qS nd pt)ᵀ * jaccMono qS nd pt ∧
       (setJacobiansMono qS nd pt e).Hpc = (jacpMono nd pt)ᵀ * jaccMono qS nd pt ∧
       (setJacobiansMono qS nd pt e).JcTE =
         (jaccMono qS nd pt)ᵀ.mulVec (fun i : Fin 2 => e i.castSucc) ∧
       (setJacobiansMono qS nd pt e).Bp =
         (jacpMono nd pt)ᵀ.mulVec (fun i : Fin 2 => e i.castSucc)) ∧
      ((setJacobiansStereo qS nd pt e).Hpp =
         (jacpStereo qS nd pt)ᵀ * jacpStereo qS nd pt ∧
       (setJacobiansStereo qS nd pt e).Hcc =
         (jaccStereo qS nd pt)ᵀ * jaccStereo qS nd pt ∧
       (setJacobiansStereo qS nd pt e).Hpc =
         (jacpStereo qS nd pt)ᵀ * jaccStereo qS nd pt ∧
       (setJacobiansStereo qS nd pt e).JcTE = (jaccStereo qS nd pt)ᵀ.mulVec e ∧
       (setJacobiansStereo qS nd pt e).Bp = (jacpStereo qS nd pt)ᵀ.mulVec e) :=
  fun _ _ _ _ => ⟨⟨rfl, rfl, rfl, rfl, rfl⟩, ⟨rfl, rfl, rfl, rfl, rfl⟩⟩

/-- C3: whenever the projected depth (the third homogeneous camera
coordinate, `(w2i * pt)(2)`) is non-positive, `calcErr` stores the residual
(0,0,0) and returns cost 0, for any observed keypoint, in both the mono and
the stereo model. -/
theorem C3_nonpositive_depth_zero_residual_and_cost :
    ∀ (nd : Node) (pt : Point) (kp errOld : Fin 3 → ℚ),
      nd.w2i.mulVec pt 2 ≤ 0 →
      (∀ i, (calcErrMono nd pt kp errOld).err i = 0) ∧
      (calcErrMono nd pt kp errOld).cost = 0 ∧
      (∀ i, (calcErrStereo nd pt kp).err i = 0) ∧
      (calcErrStereo nd pt kp).cost = 0 := by
  intro nd pt kp e h
  refine ⟨?_, ?_, ?_, ?_⟩ <;> simp [calcErrMono, calcErrStereo, h]

/-- C3 witness: a concrete point behind the camera (depth -1) has zero
residual and zero cost under both models. -/
theorem C3_witness :
    cNode.w2i.mulVec cPtBehind 2 ≤ 0 ∧
    ((∀ i, (calcErrMono cNode cPtBehind cKp (fun _ => 0)).err i = 0) ∧
     (calcErrMono cNode cPtBehind cKp (fun _ => 0)).cost = 0 ∧
     (∀ i, (calcErrStereo cNode cPtBehind cKp).err i = 0) ∧
     (calcErrStereo cNode cPtBehind cKp).cost = 0) :=
  ⟨by norm_num [cNode, cPtBehind, Matrix.mulVec, Matrix.dotProduct,
      Fin.sum_univ_four],
   C3_nonpositive_depth_zero_residual_and_cost cNode cPtBehind cKp (fun _ => 0)
     (by norm_num [cNode, cPtBehind, Matrix.mulVec, Matrix.dotProduct,
        Fin.sum_univ_four])⟩

/-- C6: for a stereo projection with positive depth the stored residual is
the left pixel coordinates `(w2i*pt)(0)/(w2i*pt)(2)` and
`(w2i*pt)(1)/(w2i*pt)(2)`, and the right-image horizontal coordinate
obtained by applying the intrinsics to the camera-frame point shifted by
(baseline,0,0), each with the observed keypoint subtracted. -/
theorem C6_stereo_residual_components :
    ∀ (nd : Node) (pt : Point) (kp : Fin 3 → ℚ),
      0 < nd.w2i.mulVec pt 2 →
      (calcErrStereo nd pt kp).err 0 =
        nd.w2i.mulVec pt 0 / nd.w2i.mulVec pt 2 - kp 0 ∧
      (calcErrStereo nd pt kp).err 1 =
        nd.w2i.mulVec pt 1 / nd.w2i.mulVec pt 2 - kp 1 ∧
      (calcErrStereo nd pt kp).err 2 =
        nd.Kcam.mulVec (nd.w2n.mulVec pt - ![nd.baseline, 0, 0]) 0 /
          nd.Kcam.mulVec (nd.w2n.mulVec pt - ![nd.baseline, 0, 0]) 2 - kp 2 := by
  intro nd pt kp h
  refine ⟨?_, ?_, ?_⟩ <;> simp [calcErrStereo, h.not_le, div_eq_mul_inv]

/-- C6 witness: the concrete point at depth 1 in front of `cNode`. -/
theorem C6_witness :
    0 < cNode.w2i.mulVec cPtFront 2 ∧
    ((calcErrStereo cNode cPtFront cKp).err 0 =
        cNode.w2i.mulVec cPtFront 0 / cNode.w2i.mulVec cPtFront 2 - cKp 0 ∧
     (calcErrStereo cNode cPtFront cKp).err 1 =
        cNode.w2i.mulVec cPtFront 1 / cNode.w2i.mulVec cPtFront 2 - cKp 1 ∧
     (calcErrStereo cNode cPtFront cKp).err 2 =
        cNode.Kcam.mulVec (cNode.w2n.mulVec cPtFront - ![cNode.baseline, 0, 0]) 0 /
          cNode.Kcam.mulVec (cNode.w2n.mulVec cPtFront - ![cNode.baseline, 0, 0]) 2 -
          cKp 2) :=
  ⟨by norm_num [cNode, cPtFront, Matrix.mulVec, Matrix.dotProduct,
      Fin.sum_univ_four],
   C6_stereo_residual_components cNode cPtFront cKp
     (by norm_num [cNode, cPtFront, Matrix.mulVec, Matrix.dotProduct,
        Fin.sum_univ_four])⟩

/-- C8: for any node, point and keypoint (any depth), the cost returned by
`calcErr` equals `getErrSquaredNorm` of the residual it stored: squared norm
of the first two components for mono, of all three for stereo, and 0 in the
non-positive-depth branch. -/
theorem C8_cost_equals_getErrSquaredNorm :
    ∀ (nd : Node) (pt : Point) (kp errOld : Fin 3 → ℚ),
      (calcErrMono nd pt kp errOld).cost =
        getErrSquaredNorm false (calcErrMono nd pt kp errOld).err ∧
      (calcErrStereo nd pt kp).cost =
        getErrSquaredNorm true (calcErrStereo nd pt kp).err := by
  intro nd pt kp e
  by_cases h : nd.w2i.mulVec pt 2 ≤ 0 <;>
    exact ⟨by simp [calcErrMono, getErrSquaredNorm, h],
           by simp [calcErrStereo, getErrSquaredNorm, h]⟩

/-- C9: for both models the point Jacobian equals the negation of the
translation block (columns 0-2) of the camera Jacobian, entry by entry:
both are built from the same columns of `w2n` with opposite signs and the
same per-row scale factors. -/
theorem C9_point_jacobian_is_negated_translation_block :
    ∀ (qS : ℚ) (nd : Node) (pt : Point),
      (jacpMono nd pt 0 0 = -jaccMono qS nd pt 0 0 ∧
       jacpMono nd pt 0 1 = -jaccMono qS nd pt 0 1 ∧
       jacpMono nd pt 0 2 = -jaccMono qS nd pt 0 2 ∧
       jacpMono nd pt 1 0 = -jaccMono qS nd pt 1 0 ∧
       jacpMono nd pt 1 1 = -jaccMono qS nd pt 1 1 ∧
       jacpMono nd pt 1 2 = -jaccMono qS nd pt 1 2) ∧
      (jacpStereo qS nd pt 0 0 = -jaccStereo qS nd pt 0 0 ∧
       jacpStereo qS nd pt 0 1 = -jaccStereo qS nd pt 0 1 ∧
       jacpStereo qS nd pt 0 2 = -jaccStereo qS nd pt 0 2 ∧
       jacpStereo qS nd pt 1 0 = -jaccStereo qS nd pt 1 0 ∧
       jacpStereo qS nd pt 1 1 = -jaccStereo qS nd pt 1 1 ∧
       jacpStereo qS nd pt 1 2 = -jaccStereo qS nd pt 1 2 ∧
       jacpStereo qS nd pt 2 0 = -jaccStereo qS nd pt 2 0 ∧
       jacpStereo qS nd pt 2 1 = -jaccStereo qS nd pt 2 1 ∧
       jacpStereo qS nd pt 2 2 = -jaccStereo qS nd pt 2 2) := by
  intro qS nd pt
  refine ⟨⟨?_, ?_, ?_, ?_, ?_, ?_⟩, ?_, ?_, ?_, ?_, ?_, ?_, ?_, ?_, ?_⟩ <;>
    simp [jacpMono, jaccMono, jacpStereo, jaccStereo] <;> ring

/-- Helper: the i-th published keypoint is `buildKeypoint` of the i-th
detected keypoint, with the descriptor row shifted by the start index of the
loop. -/
theorem publishFrameAux_getD (img : ℤ → ℤ → ℚ) (dtors : ℕ → List ℚ) :
    ∀ (kpts : List RawKeypoint) (s i : ℕ), i < kpts.length →
      (publishFrameAux img dtors s kpts).getD i default =
        buildKeypoint img (dtors (s + i)) (kpts.getD i default) := by
  intro kpts
  induction kpts with
  | nil => intro s i h; simp at h
  | cons kp rest ih =>
    intro s i h
    cases i with
    | zero => simp [publishFrameAux]
    | succ n =>
      have h' : n < rest.length := by simpa using h
      have e : s + 1 + n = s + (n + 1) := by omega
      simp only [publishFrameAux, List.getD_cons_succ]
      rw [ih (s + 1) n h', e]

/-- C7: the disparity stored with the i-th published keypoint is read from
the disparity image at (y, y) — the keypoint's y coordinate used for both
indices of the pixel lookup — with the value replaced by 10 when it is not
positive; and (second conjunct) the built keypoint does not depend on the
keypoint's x coordinate except for the copied `x` field, so the (x, y)
position is not what is looked up. -/
theorem C7_disparity_lookup_uses_y_twice :
    (∀ (img : ℤ → ℤ → ℚ) (kpts : List RawKeypoint) (dtors : ℕ → List ℚ)
        (i : ℕ), i < kpts.length →
        ((publishFrame img kpts dtors).getD i default).d =
          (if 0 < img (cvTrunc ((kpts.getD i default).pty))
                      (cvTrunc ((kpts.getD i default).pty))
           then img (cvTrunc ((kpts.getD i default).pty))
                    (cvTrunc ((kpts.getD i default).pty))
           else 10)) ∧
    (∀ (img : ℤ → ℤ → ℚ) (descRow : List ℚ) (kp : RawKeypoint) (x' : ℚ),
        buildKeypoint img descRow { kp with ptx := x' } =
          { buildKeypoint img descRow kp with x := x' }) := by
  constructor
  · intro img kpts dtors i hi
    rw [publishFrame, publishFrameAux_getD img dtors kpts 0 i hi]
    generalize kpts.getD i default = kp0
    by_cases h0 : 0 < img (cvTrunc kp0.pty) (cvTrunc kp0.pty) <;>
      simp [buildKeypoint, h0]
  · intro img descRow kp x'
    by_cases h0 : 0 < img (cvTrunc kp.pty) (cvTrunc kp.pty) <;>
      simp [buildKeypoint, h0]

/-- C7 witness: a single keypoint at (x, y) = (7, 2) against the disparity
image whose value at (r, c) is r + c. -/
theorem C7_witness :
    0 < ([cRawKp] : List RawKeypoint).length ∧
    ((publishFrame cImg [cRawKp] cDtors).getD 0 default).d =
      (if 0 < cImg (cvTrunc ((([cRawKp] : List RawKeypoint).getD 0 default).pty))
                   (cvTrunc ((([cRawKp] : List RawKeypoint).getD 0 default).pty))
       then cImg (cvTrunc ((([cRawKp] : List RawKeypoint).getD 0 default).pty))
                 (cvTrunc ((([cRawKp] : List RawKeypoint).getD 0 default).pty))
       else 10) :=
  ⟨by decide, C7_disparity_lookup_uses_y_twice.1 cImg [cRawKp] cDtors 0 (by decide)⟩

/-- C10: for every published keypoint, `goodPt` is true exactly when the
looked-up disparity is positive, `d` is exactly 10 when `goodPt` is false,
and `d` equals the looked-up disparity when `goodPt` is true. -/
theorem C10_goodPt_iff_positive_disparity :
    ∀ (img : ℤ → ℤ → ℚ) (kpts : List RawKeypoint) (dtors : ℕ → List ℚ)
      (i : ℕ), i < kpts.length →
      (((publishFrame img kpts dtors).getD i default).goodPt = true ↔
        0 < img (cvTrunc ((kpts.getD i default).pty))
                (cvTrunc ((kpts.getD i default).pty))) ∧
      (((publishFrame img kpts dtors).getD i default).goodPt = false →
        ((publishFrame img kpts dtors).getD i default).d = 10) ∧
      (((publishFrame img kpts dtors).getD i default).goodPt = true →
        ((publishFrame img kpts dtors).getD i default).d =
          img (cvTrunc ((kpts.getD i default).pty))
              (cvTrunc ((kpts.getD i default).pty))) := by
  intro img kpts dtors i hi
  rw [publishFrame, publishFrameAux_getD img dtors kpts 0 i hi]
  generalize kpts.getD i default = kp0
  by_cases h0 : 0 < img (cvTrunc kp0.pty) (cvTrunc kp0.pty) <;>
    simp [buildKeypoint, h0]

/-- C10 witness: a single keypoint against the all-zero disparity image, for
which `goodPt` must be false and `d` must be 10. -/
theorem C10_witness :
    0 < ([cRawKp] : List RawKeypoint).length ∧
    ((((publishFrame cImg0 [cRawKp] cDtors).getD 0 default).goodPt = true ↔
        0 < cImg0 (cvTrunc ((([cRawKp] : List RawKeypoint).getD 0 default).pty))
                  (cvTrunc ((([cRawKp] : List RawKeypoint).getD 0 default).pty))) ∧
     (((publishFrame cImg0 [cRawKp] cDtors).getD 0 default).goodPt = false →
        ((publishFrame cImg0 [cRawKp] cDtors).getD 0 default).d = 10) ∧
     (((publishFrame cImg0 [cRawKp] cDtors).getD 0 default).goodPt = true →
        ((publishFrame cImg0 [cRawKp] cDtors).getD 0 default).d =
          cImg0 (cvTrunc ((([cRawKp] : List RawKeypoint).getD 0 default).pty))
                (cvTrunc ((([cRawKp] : List RawKeypoint).getD 0 default).pty)))) :=
  ⟨by decide, C10_goodPt_iff_positive_disparity cImg0 [cRawKp] cDtors 0 (by decide)⟩

end VslamSBA
